import Mathlib

/-!
Formal model of the texture compiler in `src/main.cpp` (suVrik/texture.compiler).

The program converts source raster images into compressed texture containers.
Pure fragments of the C++ (validation predicates, the mip-compression loops,
the mip counter, the readback wait loop, the compression-profile selection and
the per-pixel normal-Z reconstruction) are embedded as Lean functions.
External collaborators (the stb decoder, the nvtt codec, the bgfx GPU backend)
are modelled by oracle parameters: a Boolean, or a `Nat → Bool` indexed by mip
level, stating whether the collaborator call succeeds, exactly as the C++
branches on the collaborator's return value.
-/

/-- The quality tier requested on the command line; `main.cpp` lines 29-33. -/
inductive Compression where
  | GOOD_BUT_SLOW
  | POOR_BUT_FAST
  | NO_COMPRESSION
deriving DecidableEq

/-- The nvtt block/pixel formats that `main.cpp` ever passes to
`CompressionOptions::setFormat`. -/
inductive NvttFormat where
  | BC3
  | BC4
  | BC6
  | BC7
  | RGBA
  | RGB
deriving DecidableEq

/-- An argument record of one of the two `nvtt::CompressionOptions::setPixelFormat`
overloads used by `main.cpp`: either a bit count plus four channel masks
(line 306) or four per-channel bit sizes (lines 730, 905, 1055). -/
inductive PixelFormatSetting where
  | masks (bitcount rmask gmask bmask amask : Nat)
  | sizes (rsize gsize bsize asize : Nat)
deriving DecidableEq

/-- The nvtt pixel type passed to `setPixelType`; only `PixelType_Float` is used. -/
inductive NvttPixelType where
  | float
deriving DecidableEq

/-- The observable state of an `nvtt::CompressionOptions` object after the
program has configured it: the format plus the optional pixel-format and
pixel-type overrides (absent when the corresponding setter is never called). -/
structure CompressionOptionsState where
  format : NvttFormat
  pixelFormat : Option PixelFormatSetting
  pixelType : Option NvttPixelType
deriving DecidableEq

/-- Compression options chosen by `compile_parallax`, `main.cpp` lines 297-308:
BC4 for both `GOOD_BUT_SLOW` and `POOR_BUT_FAST`; for `NO_COMPRESSION`,
`Format_RGBA` with `setPixelFormat(8, 0xFF, 0x00, 0x00, 0x00)`. -/
def parallax_compression_options : Compression → CompressionOptionsState
  | .GOOD_BUT_SLOW => ⟨.BC4, none, none⟩
  | .POOR_BUT_FAST => ⟨.BC4, none, none⟩
  | .NO_COMPRESSION => ⟨.RGBA, some (.masks 8 0xFF 0x00 0x00 0x00), none⟩

/-- Compression options for the irradiance container, `main.cpp` lines 902-906:
built without consulting the requested tier (the `compression` argument of
`compile_cube_map` is ignored here): `Format_RGB` with
`setPixelFormat(16, 16, 16, 16)` and `PixelType_Float`. -/
def irradiance_compression_options : Compression → CompressionOptionsState :=
  fun _ => ⟨.RGB, some (.sizes 16 16 16 16), some .float⟩

/-- Per-pixel reconstruction of the blue (Z) channel of a tangent-space normal
map, `main.cpp` lines 164-175: `red = r*2-1`, `green = g*2-1`,
`dot = red*red + green*green`; if `dot < 1` the value is
`sqrt(1-dot)*0.5 + 0.5`, otherwise the pixel is a broken normal and the value
is `0.5`. Channel values are modelled as real numbers. -/
noncomputable def reconstruct_z (r g : ℝ) : ℝ :=
  let red := r * 2 - 1
  let green := g * 2 - 1
  let dot := red * red + green * green
  if dot < 1 then Real.sqrt (1 - dot) * 0.5 + 0.5 else 0.5

/-- The observable per-pixel content of an `nvtt::Surface` for a 1x1 image:
its four channel values plus the `setNormalMap` flag. -/
structure SurfaceSpec where
  c0 : ℝ
  c1 : ℝ
  c2 : ℝ
  c3 : ℝ
  isNormalMap : Bool

/-- The `normal` surface built by `compile_normal_metalness_ambient_occlusion`
for a 1x1 input pixel with red `r` and green `g`, `main.cpp` lines 160-188:
channels (red, green, reconstructed blue, constant alpha 1), then
`setNormalMap(true)`. -/
noncomputable def nmao_normal_surface (r g : ℝ) : SurfaceSpec :=
  ⟨r, g, reconstruct_z r g, 1, true⟩

/-- The `metalness_ambient_occlusion` surface for a 1x1 input pixel with
metalness `m` (input channel 2) and ambient occlusion `ao` (input channel 3),
`main.cpp` lines 190-201: `setImage(w, h, 1)` yields a zeroed surface, then
`copyChannel(surface, 2)` and `copyChannel(surface, 3)`; `setNormalMap(false)`. -/
def nmao_metalness_ao_surface (m ao : ℝ) : SurfaceSpec :=
  ⟨0, 0, m, ao, false⟩

/-- The surfaces `compile_normal_metalness_ambient_occlusion` actually submits
to `Compressor::compress`, for a 1x1 input (so `countMipmaps` is 1 and the
mip loop of lines 235-259 runs exactly once). Line 236 re-sets the single
`surface` from `normal.channel(0)`, `normal.channel(1)`,
`metalness_ambient_occlusion.channel(2)`,
`metalness_ambient_occlusion.channel(3)` — `surface` never has
`setNormalMap(true)` applied — and line 237 compresses that one surface. -/
noncomputable def nmao_compress_submissions (r g m ao : ℝ) : List SurfaceSpec :=
  [⟨(nmao_normal_surface r g).c0, (nmao_normal_surface r g).c1,
    (nmao_metalness_ao_surface m ao).c2, (nmao_metalness_ao_surface m ao).c3, false⟩]

/-- Dimension check of `compile_albedo_roughness`, `main.cpp` line 64:
`width <= 0 || height <= 0 || width > 65535 || height > 65535 ||
(width & (width-1)) != 0 || (height & (height-1)) != 0`.
Decoded dimensions are naturals, so `<= 0` is `= 0`. -/
def albedo_dims_rejected (w h : Nat) : Bool :=
  decide (w = 0 ∨ h = 0 ∨ 65535 < w ∨ 65535 < h ∨ w &&& (w - 1) ≠ 0 ∨ h &&& (h - 1) ≠ 0)

/-- Dimension check of `compile_normal_metalness_ambient_occlusion`,
`main.cpp` line 144; textually identical to line 64. -/
def nmao_dims_rejected (w h : Nat) : Bool :=
  decide (w = 0 ∨ h = 0 ∨ 65535 < w ∨ 65535 < h ∨ w &&& (w - 1) ≠ 0 ∨ h &&& (h - 1) ≠ 0)

/-- Dimension check of `compile_parallax`, `main.cpp` line 275; it writes
`width == 0` where the others write `width <= 0`, which is the same test on
naturals. -/
def parallax_dims_rejected (w h : Nat) : Bool :=
  decide (w = 0 ∨ h = 0 ∨ 65535 < w ∨ 65535 < h ∨ w &&& (w - 1) ≠ 0 ∨ h &&& (h - 1) ≠ 0)

/-- Dimension check of `compile_cube_map` on the decoded HDR image,
`main.cpp` line 614: `width <= 0 || height <= 0 || width > 65535 ||
height > 65535` — it has no power-of-two clause. -/
def cube_dims_rejected (w h : Nat) : Bool :=
  decide (w = 0 ∨ h = 0 ∨ 65535 < w ∨ 65535 < h)

/-- Modelled from the spec: the dimension-failure condition of §4.1/§8 —
a dimension that is zero, exceeds 65535, or is not a power of two. -/
def spec_invalid_dims (w h : Nat) : Prop :=
  w = 0 ∨ h = 0 ∨ 65535 < w ∨ 65535 < h ∨ (¬ ∃ k, w = 2 ^ k) ∨ (¬ ∃ k, h = 2 ^ k)

/-- Observable actions of the 2D (non-cube) compilation paths: codec surface
uploads, the container-header write (the first write to the output file),
per-mip compress calls, per-mip `buildNextMipmap` calls, and the log-only
handling `compile_parallax` gives a failed mip build. -/
inductive TwoDEvent where
  | setImage
  | outputHeader
  | compressMip (mip : Nat)
  | buildMip (mip : Nat)
  | buildFailureLogged (mip : Nat)
deriving DecidableEq

/-- Mip loop of `compile_albedo_roughness`, `main.cpp` lines 116-128, with
`remaining = total_mip_levels - mip_level` as the recursion measure:
compress the current level (abort with 1 on failure); when another level
remains (`mip_level + 1 < total_mip_levels`), build the next mip and abort
with 1 on failure. Returns the exit code and the events performed.
`compressOk`/`buildOk` are the success oracles of the nvtt collaborator. -/
def albedo_mip_loop (compressOk buildOk : Nat → Bool) : Nat → Nat → Nat × List TwoDEvent
  | 0, _ => (0, [])
  | remaining + 1, mip =>
    if compressOk mip = false then (1, [.compressMip mip])
    else if 0 < remaining then
      if buildOk mip = false then (1, [.compressMip mip, .buildMip mip])
      else
        let p := albedo_mip_loop compressOk buildOk remaining (mip + 1)
        (p.1, .compressMip mip :: .buildMip mip :: p.2)
    else (0, [.compressMip mip])

/-- Mip loop of `compile_normal_metalness_ambient_occlusion`, `main.cpp`
lines 235-259: each iteration re-sets the combined surface (line 236,
a `setImage` event), compresses it, and when another level remains builds the
next normal mip (abort on failure) and the next metalness/AO mip (abort on
failure). The `expandNormals`/`normalizeNormalMap`/`packNormals` calls are
value-level and emit no event. -/
def nmao_mip_loop (compressOk buildNormalOk buildMaoOk : Nat → Bool) :
    Nat → Nat → Nat × List TwoDEvent
  | 0, _ => (0, [])
  | remaining + 1, mip =>
    if compressOk mip = false then (1, [.setImage, .compressMip mip])
    else if 0 < remaining then
      if buildNormalOk mip = false then (1, [.setImage, .compressMip mip, .buildMip mip])
      else if buildMaoOk mip = false then
        (1, [.setImage, .compressMip mip, .buildMip mip, .buildMip mip])
      else
        let p := nmao_mip_loop compressOk buildNormalOk buildMaoOk remaining (mip + 1)
        (p.1, .setImage :: .compressMip mip :: .buildMip mip :: .buildMip mip :: p.2)
    else (0, [.setImage, .compressMip mip])

/-- Mip loop of `compile_parallax`, `main.cpp` lines 322-333: compress the
current level (abort with 1 on failure); when another level remains, build the
next mip — but on build failure only print a log line (lines 328-330 have no
`return`), then fall through to the next iteration. -/
def parallax_mip_loop (compressOk buildOk : Nat → Bool) : Nat → Nat → Nat × List TwoDEvent
  | 0, _ => (0, [])
  | remaining + 1, mip =>
    if compressOk mip = false then (1, [.compressMip mip])
    else if 0 < remaining then
      let p := parallax_mip_loop compressOk buildOk remaining (mip + 1)
      if buildOk mip = false then
        (p.1, .compressMip mip :: .buildMip mip :: .buildFailureLogged mip :: p.2)
      else
        (p.1, .compressMip mip :: .buildMip mip :: p.2)
    else (0, [.compressMip mip])

/-- Model of `compile_albedo_roughness`, `main.cpp` lines 57-135, at trace
level. `decoded` is the stb decoder's result (`none` = load failure);
`setImageOk`, `outputHeaderOk`, `compressOk`, `buildOk` are success oracles
for the nvtt collaborator calls; `total_mip_levels` is the value nvtt's
`Surface::countMipmaps()` reports for the decoded image. Returns the exit
code and the trace of codec/output events. -/
def compile_albedo_roughness (decoded : Option (Nat × Nat)) (setImageOk outputHeaderOk : Bool)
    (compressOk buildOk : Nat → Bool) (total_mip_levels : Nat) : Nat × List TwoDEvent :=
  match decoded with
  | none => (1, [])
  | some (w, h) =>
    if albedo_dims_rejected w h then (1, [])
    else if setImageOk = false then (1, [.setImage])
    else if outputHeaderOk = false then (1, [.setImage, .outputHeader])
    else
      let p := albedo_mip_loop compressOk buildOk total_mip_levels 0
      (p.1, .setImage :: .outputHeader :: p.2)

/-- Model of `compile_normal_metalness_ambient_occlusion`, `main.cpp` lines
137-266, at trace level. Three surfaces are uploaded before the header is
written (the decoded surface, the normal surface with reconstructed Z, and
the metalness/AO surface); `setImageOk` gates them collectively. -/
def compile_normal_metalness_ambient_occlusion (decoded : Option (Nat × Nat))
    (setImageOk outputHeaderOk : Bool) (compressOk buildNormalOk buildMaoOk : Nat → Bool)
    (total_mip_levels : Nat) : Nat × List TwoDEvent :=
  match decoded with
  | none => (1, [])
  | some (w, h) =>
    if nmao_dims_rejected w h then (1, [])
    else if setImageOk = false then (1, [.setImage])
    else if outputHeaderOk = false then (1, [.setImage, .setImage, .setImage, .outputHeader])
    else
      let p := nmao_mip_loop compressOk buildNormalOk buildMaoOk total_mip_levels 0
      (p.1, .setImage :: .setImage :: .setImage :: .outputHeader :: p.2)

/-- Model of `compile_parallax`, `main.cpp` lines 268-340, at trace level. -/
def compile_parallax (decoded : Option (Nat × Nat)) (setImageOk outputHeaderOk : Bool)
    (compressOk buildOk : Nat → Bool) (total_mip_levels : Nat) : Nat × List TwoDEvent :=
  match decoded with
  | none => (1, [])
  | some (w, h) =>
    if parallax_dims_rejected w h then (1, [])
    else if setImageOk = false then (1, [.setImage])
    else if outputHeaderOk = false then (1, [.setImage, .outputHeader])
    else
      let p := parallax_mip_loop compressOk buildOk total_mip_levels 0
      (p.1, .setImage :: .outputHeader :: p.2)

/-- Model of `count_mip_maps`, `main.cpp` lines 554-561: `result = 1;
while (size > 1) { size /= 2; result++; } return result;` written as the
equivalent recursion on `size`. -/
def count_mip_maps (size : Nat) : Nat :=
  if h : 1 < size then count_mip_maps (size / 2) + 1 else 1
termination_by size
decreasing_by exact Nat.div_lt_self (by omega) (by omega)

/-- The mip indices generated by the prefilter halving loops, `main.cpp`
lines 1010-1011 and 1074-1075: `for (mip_size = prefilter_size, mip_level = 0;
mip_size >= 1; mip_size /= 2, mip_level++)`. -/
def prefilter_mip_levels (mip_size mip_level : Nat) : List Nat :=
  if h : 1 ≤ mip_size then
    mip_level :: prefilter_mip_levels (mip_size / 2) (mip_level + 1)
  else []
termination_by mip_size
decreasing_by exact Nat.div_lt_self (by omega) (by omega)

/-- Observable codec/output actions of `compile_cube_map`: container-header
writes (with the declared size and mip count) and per-(face, mip) compress
calls. `container` is 0 for the base cube map, 1 for the irradiance map,
2 for the prefilter map. -/
inductive CubeEvent where
  | outputHeader (container size mips : Nat)
  | compress (container side mip : Nat)
deriving DecidableEq

/-- Model of `compile_cube_map`, `main.cpp` lines 563-1117, at the level of
its container output: after the decoded-image dimension check (line 614,
which runs after SDL/bgfx bootstrap but before any texture or codec work),
the success path writes the base header with `count_mip_maps(output_size)`
mips (lines 741-745), then per side 0..5 compresses mips
`0..total_mip_levels-1` in increasing order (lines 749-792); writes the
irradiance header with 1 mip (line 914) and compresses mip 0 for sides 0..5
(lines 921-955); writes the prefilter header with
`count_mip_maps(prefilter_size)` mips (lines 1066-1070) and, per side 0..5,
compresses the mip indices of the halving loop (lines 1074-1110). GPU
resource creation, rendering and readback are collapsed to their success
path; any collaborator failure would return 1 after a prefix of this trace. -/
def compile_cube_map (w h output_size irradiance_size prefilter_size : Nat) :
    Nat × List CubeEvent :=
  if cube_dims_rejected w h then (1, [])
  else
    (0,
      (CubeEvent.outputHeader 0 output_size (count_mip_maps output_size) ::
        (List.range 6).flatMap (fun side =>
          (List.range (count_mip_maps output_size)).map (fun mip =>
            CubeEvent.compress 0 side mip))) ++
      (CubeEvent.outputHeader 1 irradiance_size 1 ::
        (List.range 6).map (fun side => CubeEvent.compress 1 side 0)) ++
      (CubeEvent.outputHeader 2 prefilter_size (count_mip_maps prefilter_size) ::
        (List.range 6).flatMap (fun side =>
          (prefilter_mip_levels prefilter_size 0).map (fun mip =>
            CubeEvent.compress 2 side mip))))

/-- Projection selecting the (side, mip) argument pair of a compress call for
container `c`. -/
def compress_call_of (c : Nat) : CubeEvent → Option (Nat × Nat)
  | .compress c' side mip => if c' = c then some (side, mip) else none
  | _ => none

/-- Projection selecting the declared mip count of a header write for
container `c`. -/
def header_mips_of (c : Nat) : CubeEvent → Option Nat
  | .outputHeader c' _ mips => if c' = c then some mips else none
  | _ => none

/-- The (side, mip) arguments of the compress calls recorded for one
container, in call order. -/
def compress_calls (c : Nat) (tr : List CubeEvent) : List (Nat × Nat) :=
  tr.filterMap (compress_call_of c)

/-- The mip count declared by the first header written for one container. -/
def header_mips (c : Nat) (tr : List CubeEvent) : Option Nat :=
  (tr.filterMap (header_mips_of c)).head?

/-- The face-major, mip-minor (side, mip) sequence: sides 0..faces-1 in the
outer loop, mips 0..mips-1 in the inner loop. -/
def face_major (faces mips : Nat) : List (Nat × Nat) :=
  (List.range faces).flatMap (fun side => (List.range mips).map (fun mip => (side, mip)))

/-- A (side, mip) sequence is face-major, mip-minor ordered when it is
strictly increasing in the lexicographic order on (side, mip). -/
def face_major_ordered (l : List (Nat × Nat)) : Prop :=
  l.Pairwise (fun p q => p.1 < q.1 ∨ (p.1 = q.1 ∧ p.2 < q.2))

/-- Model of the readback wait loop, `main.cpp` lines 761-767 (and identically
933-939, 1087-1093): after `frame_id = bgfx::readTexture(...)` (the `token`),
`do { current_frame_id = bgfx::frame(); } while (current_frame_id < frame_id);`.
`frames i` is the completed-frame counter returned by the i-th `bgfx::frame()`
call; `fuel` bounds how many polls are modelled. The result is the counter
value observed when the loop exits — `some observed` — and the CPU buffer for
the (face, mip) at hand is consumed (passed to `Surface::setImage`) only
after such an exit; `none` models a run whose polls never reach the token,
in which the buffer is never consumed (the real loop would spin forever). -/
def wait_for_frame (frames : Nat → Nat) (token : Nat) : Nat → Nat → Option Nat
  | 0, _ => none
  | fuel + 1, i =>
    if frames i < token then wait_for_frame frames token fuel (i + 1)
    else some (frames i)

/-- The roughness cap constant `MAX_MIP_LEVELS`, `main.cpp` line 1031. -/
def MAX_MIP_LEVELS : Nat := 4

/-- The `u_settings` uniform uploaded for the prefilter pass at mip index
`mip_level`, `main.cpp` lines 1031-1033:
`{ min(mip_level, MAX_MIP_LEVELS) / MAX_MIP_LEVELS, output_size, 0, 0 }`,
with the float division modelled exactly over ℚ. -/
def prefilter_settings (mip_level output_size : Nat) : ℚ × ℚ × ℚ × ℚ :=
  (((min mip_level MAX_MIP_LEVELS : Nat) : ℚ) / ((MAX_MIP_LEVELS : Nat) : ℚ),
    (output_size : ℚ), 0, 0)

/-- Evaluation of `compress_call_of` on a compress event. -/
@[simp] theorem compress_call_of_compress (c c' s m : Nat) :
    compress_call_of c (.compress c' s m) = if c' = c then some (s, m) else none := rfl

/-- Evaluation of `compress_call_of` on a header event. -/
@[simp] theorem compress_call_of_header (c c' sz mi : Nat) :
    compress_call_of c (.outputHeader c' sz mi) = none := rfl

/-- Evaluation of `header_mips_of` on a compress event. -/
@[simp] theorem header_mips_of_compress (c c' s m : Nat) :
    header_mips_of c (.compress c' s m) = none := rfl

/-- Evaluation of `header_mips_of` on a header event. -/
@[simp] theorem header_mips_of_header (c c' sz mi : Nat) :
    header_mips_of c (.outputHeader c' sz mi) = if c' = c then some mi else none := rfl

/-- The bit trick `(w & (w - 1)) == 0` used by the dimension checks at
`main.cpp` lines 64, 144 and 275 recognises exactly the powers of two among
the positive naturals. -/
theorem land_pred_eq_zero_iff_pow_two {w : Nat} (hw : 0 < w) :
    w &&& (w - 1) = 0 ↔ ∃ k, w = 2 ^ k := by
  constructor
  · intro h
    refine ⟨w.log2, ?_⟩
    by_contra hne
    have hk1 : 2 ^ w.log2 ≤ w := Nat.log2_self_le (Nat.pos_iff_ne_zero.mp hw)
    have hk2 : w < 2 ^ (w.log2 + 1) := Nat.lt_log2_self
    have hlt : 2 ^ w.log2 < w := lt_of_le_of_ne hk1 (fun e => hne e.symm)
    have hpow : 0 < 2 ^ w.log2 := pow_pos (by norm_num) _
    have hsucc : 2 ^ (w.log2 + 1) = 2 ^ w.log2 * 2 := by rw [Nat.pow_succ]
    have hw1 : w / 2 ^ w.log2 = 1 := by
      have hge : 1 ≤ w / 2 ^ w.log2 := (Nat.le_div_iff_mul_le hpow).mpr (by omega)
      have hlt2 : w / 2 ^ w.log2 < 2 := (Nat.div_lt_iff_lt_mul hpow).mpr (by omega)
      omega
    have hw2 : (w - 1) / 2 ^ w.log2 = 1 := by
      have hge : 1 ≤ (w - 1) / 2 ^ w.log2 := (Nat.le_div_iff_mul_le hpow).mpr (by omega)
      have hlt2 : (w - 1) / 2 ^ w.log2 < 2 := (Nat.div_lt_iff_lt_mul hpow).mpr (by omega)
      omega
    have hb1 : w.testBit w.log2 = true := by
      rw [Nat.testBit_to_div_mod, hw1]; rfl
    have hb2 : (w - 1).testBit w.log2 = true := by
      rw [Nat.testBit_to_div_mod, hw2]; rfl
    have hland : (w &&& (w - 1)).testBit w.log2 = true := by
      rw [Nat.testBit_and, hb1, hb2]; rfl
    rw [h, Nat.zero_testBit] at hland
    exact Bool.false_ne_true hland
  · rintro ⟨k, rfl⟩
    have hmod := Nat.and_pow_two_sub_one_eq_mod (2 ^ k) k
    simp only [Nat.mod_self] at hmod
    exact hmod

/-- One dimension at a time: the code's `w = 0`-or-bit-trick clauses agree
with the spec's `w = 0`-or-not-a-power-of-two clauses. -/
theorem zero_or_land_iff (w : Nat) :
    (w = 0 ∨ w &&& (w - 1) ≠ 0) ↔ (w = 0 ∨ ¬ ∃ k, w = 2 ^ k) := by
  rcases Nat.eq_zero_or_pos w with hz | hp
  · simp [hz]
  · have hiff := land_pred_eq_zero_iff_pow_two hp
    constructor
    · rintro (rfl | hl)
      · omega
      · exact Or.inr (fun hpow => hl (hiff.mpr hpow))
    · rintro (rfl | hpow)
      · omega
      · exact Or.inr (fun hl => hpow (hiff.mp hl))

/-- The rejection condition shared by the three 2D dimension checks holds
exactly on the spec-invalid dimensions. -/
theorem rejected_expr_iff_spec_invalid (w h : Nat) :
    (w = 0 ∨ h = 0 ∨ 65535 < w ∨ 65535 < h ∨ w &&& (w - 1) ≠ 0 ∨ h &&& (h - 1) ≠ 0) ↔
      spec_invalid_dims w h := by
  unfold spec_invalid_dims
  constructor
  · rintro (h0 | h0 | h0 | h0 | h0 | h0)
    · exact Or.inl h0
    · exact Or.inr (Or.inl h0)
    · exact Or.inr (Or.inr (Or.inl h0))
    · exact Or.inr (Or.inr (Or.inr (Or.inl h0)))
    · rcases (zero_or_land_iff w).mp (Or.inr h0) with h1 | h1
      · exact Or.inl h1
      · exact Or.inr (Or.inr (Or.inr (Or.inr (Or.inl h1))))
    · rcases (zero_or_land_iff h).mp (Or.inr h0) with h1 | h1
      · exact Or.inr (Or.inl h1)
      · exact Or.inr (Or.inr (Or.inr (Or.inr (Or.inr h1))))
  · rintro (h0 | h0 | h0 | h0 | h0 | h0)
    · exact Or.inl h0
    · exact Or.inr (Or.inl h0)
    · exact Or.inr (Or.inr (Or.inl h0))
    · exact Or.inr (Or.inr (Or.inr (Or.inl h0)))
    · rcases (zero_or_land_iff w).mpr (Or.inr h0) with h1 | h1
      · exact Or.inl h1
      · exact Or.inr (Or.inr (Or.inr (Or.inr (Or.inl h1))))
    · rcases (zero_or_land_iff h).mpr (Or.inr h0) with h1 | h1
      · exact Or.inr (Or.inl h1)
      · exact Or.inr (Or.inr (Or.inr (Or.inr (Or.inr h1))))

/-- The three 2D dimension checks accept exactly the spec-valid dimensions. -/
theorem dims_rejected_iff_spec_invalid (w h : Nat) :
    (albedo_dims_rejected w h = true ↔ spec_invalid_dims w h) ∧
    (nmao_dims_rejected w h = true ↔ spec_invalid_dims w h) ∧
    (parallax_dims_rejected w h = true ↔ spec_invalid_dims w h) := by
  refine ⟨?_, ?_, ?_⟩ <;>
    simp only [albedo_dims_rejected, nmao_dims_rejected, parallax_dims_rejected,
      decide_eq_true_eq] <;>
    exact rejected_expr_iff_spec_invalid w h

/-- Three is not a power of two (by the bit test). -/
theorem three_not_pow_two : ¬ ∃ k : Nat, 3 = 2 ^ k := fun hp =>
  absurd ((land_pred_eq_zero_iff_pow_two (by norm_num)).mpr hp) (by decide)

/-- The mip counter computes the floor base-2 logarithm plus one. -/
theorem count_mip_maps_eq_log2 (size : Nat) : count_mip_maps size = Nat.log2 size + 1 := by
  induction size using Nat.strong_induction_on with
  | _ n ih =>
    by_cases h : 1 < n
    · rw [count_mip_maps, dif_pos h, ih (n / 2) (Nat.div_lt_self (by omega) (by omega))]
      conv_rhs => rw [Nat.log2]
      rw [if_pos (by omega : 2 ≤ n)]
    · rw [count_mip_maps, dif_neg h]
      have hlog : Nat.log2 n = 0 := by
        rw [Nat.log2, if_neg (by omega)]
      omega

/-- For a positive start size the halving loop emits exactly
`count_mip_maps mip_size` consecutive mip indices. -/
theorem prefilter_mip_levels_eq_range (s : Nat) :
    1 ≤ s → ∀ l, prefilter_mip_levels s l = List.range' l (count_mip_maps s) := by
  induction s using Nat.strong_induction_on with
  | _ n ih =>
    intro hn l
    rw [prefilter_mip_levels, dif_pos hn]
    by_cases h2 : 1 < n
    · rw [ih (n / 2) (Nat.div_lt_self (by omega) (by omega)) (by omega) (l + 1)]
      conv_rhs => rw [count_mip_maps]
      rw [dif_pos h2, List.range'_succ]
    · have hn1 : n = 1 := by omega
      subst hn1
      rw [count_mip_maps, dif_neg (by omega), List.range'_succ]
      rw [prefilter_mip_levels, dif_neg (by omega)]
      rfl

/-- Membership in the canonical face-major sequence. -/
theorem mem_face_major {faces mips : Nat} {p : Nat × Nat} :
    p ∈ face_major faces mips ↔ p.1 < faces ∧ p.2 < mips := by
  cases p with
  | mk a b =>
    simp only [face_major, List.mem_flatMap, List.mem_map, List.mem_range]
    constructor
    · rintro ⟨s, hs, m, hm, heq⟩
      cases heq
      exact ⟨hs, hm⟩
    · rintro ⟨ha, hb⟩
      exact ⟨a, ha, b, hb, rfl⟩

/-- The canonical face-major sequence is lexicographically sorted. -/
theorem face_major_ordered_face_major (faces mips : Nat) :
    face_major_ordered (face_major faces mips) := by
  induction faces with
  | zero => simp [face_major, face_major_ordered]
  | succ f ih =>
    unfold face_major_ordered face_major
    rw [List.range_succ, List.flatMap_append, List.pairwise_append]
    refine ⟨ih, ?_, ?_⟩
    · rw [List.flatMap_singleton, List.pairwise_map]
      exact (List.pairwise_lt_range mips).imp (fun hab => Or.inr ⟨rfl, hab⟩)
    · intro p hp q hq
      have hp' : p.1 < f := (mem_face_major.mp hp).1
      have hq' : q.1 = f := by
        rw [List.flatMap_singleton, List.mem_map] at hq
        rcases hq with ⟨m, _, rfl⟩
        rfl
      exact Or.inl (by omega)

/-- Length of the canonical face-major sequence. -/
theorem face_major_length (faces mips : Nat) :
    (face_major faces mips).length = faces * mips := by
  induction faces with
  | zero => simp [face_major]
  | succ f ih =>
    unfold face_major
    rw [List.range_succ, List.flatMap_append, List.length_append]
    unfold face_major at ih
    rw [ih, List.flatMap_singleton, List.length_map, List.length_range]
    ring

/-- A `filterMap` distributes over `flatMap`. -/
theorem filterMap_flatMap_eq {α β γ : Type} (l : List α) (g : α → List β) (f : β → Option γ) :
    (l.flatMap g).filterMap f = l.flatMap (fun a => (g a).filterMap f) := by
  induction l with
  | nil => rfl
  | cons a t ih => simp [List.flatMap_cons, List.filterMap_append, ih]

/-- A `filterMap` after a `map`, with the composite applied pointwise. -/
theorem filterMap_map_eq {α β γ : Type} (l : List α) (g : α → β) (f : β → Option γ) :
    (l.map g).filterMap f = l.filterMap (fun a => f (g a)) := by
  induction l with
  | nil => rfl
  | cons a t ih => cases h : f (g a) <;> simp [List.filterMap_cons, h, ih]

/-- A `filterMap` of an everywhere-`some` function is a `map`. -/
theorem filterMap_some_fun {α γ : Type} (l : List α) (f : α → γ) :
    l.filterMap (fun a => some (f a)) = l.map f := by
  induction l with
  | nil => rfl
  | cons a t ih => simp [List.filterMap_cons, ih]

/-- A `filterMap` of an everywhere-`none` function is empty. -/
theorem filterMap_none_fun {α γ : Type} (l : List α) :
    l.filterMap (fun _ => (none : Option γ)) = [] := by
  induction l with
  | nil => rfl
  | cons a t ih => simp [List.filterMap_cons, ih]

/-- The range of length 1 is the singleton `[0]`. -/
theorem range_one_eq : List.range 1 = [0] := rfl

/-- A `flatMap` of the constantly empty function is empty. -/
theorem flatMap_nil_fun {α β : Type} (l : List α) :
    (l.flatMap fun _ => ([] : List β)) = [] := by
  induction l with
  | nil => rfl
  | cons a t ih => simp [List.flatMap_cons, ih]

/-- A `flatMap` of singleton lists is a `map`. -/
theorem flatMap_singleton_fun {α β : Type} (l : List α) (f : α → β) :
    l.flatMap (fun a => [f a]) = l.map f := by
  induction l with
  | nil => rfl
  | cons a t ih => simp [List.flatMap_cons, ih]

/-- On dimension-accepted inputs, `compile_cube_map` returns 0 and its trace
decomposes per container: compress calls of the base container follow the
face-major sequence over `count_mip_maps output_size` mips, those of the
irradiance container the face-major sequence over 1 mip, those of the
prefilter container the per-side halving-loop mip indices; the three headers
declare `count_mip_maps output_size`, 1 and `count_mip_maps prefilter_size`
mips respectively. -/
theorem compile_cube_map_trace (w h osize isize psize : Nat)
    (hr : cube_dims_rejected w h = false) :
    (compile_cube_map w h osize isize psize).1 = 0 ∧
    compress_calls 0 (compile_cube_map w h osize isize psize).2 =
      face_major 6 (count_mip_maps osize) ∧
    compress_calls 1 (compile_cube_map w h osize isize psize).2 = face_major 6 1 ∧
    compress_calls 2 (compile_cube_map w h osize isize psize).2 =
      (List.range 6).flatMap (fun side =>
        (prefilter_mip_levels psize 0).map (fun mip => (side, mip))) ∧
    header_mips 0 (compile_cube_map w h osize isize psize).2 =
      some (count_mip_maps osize) ∧
    header_mips 1 (compile_cube_map w h osize isize psize).2 = some 1 ∧
    header_mips 2 (compile_cube_map w h osize isize psize).2 =
      some (count_mip_maps psize) := by
  simp [compile_cube_map, hr, compress_calls, header_mips, face_major,
    filterMap_flatMap_eq, filterMap_map_eq, List.filterMap_append, List.filterMap_cons,
    filterMap_some_fun, filterMap_none_fun, flatMap_nil_fun, flatMap_singleton_fun,
    range_one_eq, Function.comp_def]

/-- Evaluation of the reconstruction at the flat pixel: both input channels
at 0.5 give reconstructed Z exactly 1. -/
theorem reconstruct_z_flat_pixel : reconstruct_z 0.5 0.5 = 1 := by
  simp only [reconstruct_z]
  rw [if_pos (by norm_num)]
  norm_num

/-- C1 (divergence evidence): on a 2-mip asset whose first `buildNextMipmap`
fails, `compile_albedo_roughness` (and the NMAO path) abort with exit code 1
and compress nothing past mip 0, but `compile_parallax` merely logs the
failure, goes on to compress mip 1, and returns 0 — the parallax path
violates the claimed abort-on-mip-build-failure policy. -/
theorem c1_parallax_mip_build_failure_not_aborted :
    parallax_mip_loop (fun _ => true) (fun _ => false) 2 0 =
      (0, [.compressMip 0, .buildMip 0, .buildFailureLogged 0, .compressMip 1]) ∧
    albedo_mip_loop (fun _ => true) (fun _ => false) 2 0 =
      (1, [.compressMip 0, .buildMip 0]) ∧
    nmao_mip_loop (fun _ => true) (fun _ => false) (fun _ => true) 2 0 =
      (1, [.setImage, .compressMip 0, .buildMip 0]) ∧
    compile_parallax (some (2, 2)) true true (fun _ => true) (fun _ => false) 2 =
      (0, [.setImage, .outputHeader, .compressMip 0, .buildMip 0, .buildFailureLogged 0,
        .compressMip 1]) ∧
    compile_albedo_roughness (some (2, 2)) true true (fun _ => true) (fun _ => false) 2 =
      (1, [.setImage, .outputHeader, .compressMip 0, .buildMip 0]) := by
  refine ⟨rfl, rfl, rfl, rfl, rfl⟩

/-- C2 amended: for the AlbedoRoughness, NormalMetalnessAO and Parallax
classes, a decoded image whose width or height is zero, exceeds 65535, or is
not a power of two is rejected before any codec work: the function returns 1
with an empty codec/output trace (no output file is touched). The CubeMap
path, however, rejects a decoded image exactly when a dimension is zero or
exceeds 65535 — it has no power-of-two requirement (and its check runs after
renderer bootstrap, though still before any texture or codec work). -/
theorem c2_amended_dimension_validation :
    (∀ w h : Nat, spec_invalid_dims w h →
      ∀ (siOk hOk : Bool) (cOk bOk bOk2 : Nat → Bool) (total : Nat),
        compile_albedo_roughness (some (w, h)) siOk hOk cOk bOk total = (1, []) ∧
        compile_normal_metalness_ambient_occlusion (some (w, h)) siOk hOk cOk bOk bOk2 total =
          (1, []) ∧
        compile_parallax (some (w, h)) siOk hOk cOk bOk total = (1, [])) ∧
    (∀ w h osize isize psize : Nat,
      compile_cube_map w h osize isize psize = (1, []) ↔
        (w = 0 ∨ h = 0 ∨ 65535 < w ∨ 65535 < h)) := by
  constructor
  · intro w h hs siOk hOk cOk bOk bOk2 total
    obtain ⟨ha, hn, hp⟩ := dims_rejected_iff_spec_invalid w h
    refine ⟨?_, ?_, ?_⟩
    · simp [compile_albedo_roughness, ha.mpr hs]
    · simp [compile_normal_metalness_ambient_occlusion, hn.mpr hs]
    · simp [compile_parallax, hp.mpr hs]
  · intro w h osize isize psize
    by_cases hr : cube_dims_rejected w h = true
    · constructor
      · intro _
        simpa [cube_dims_rejected, decide_eq_true_eq] using hr
      · intro _
        simp [compile_cube_map, hr]
    · have hr' : cube_dims_rejected w h = false := by
        simpa using hr
      constructor
      · intro hcomp
        have h1 := (compile_cube_map_trace w h osize isize psize hr').1
        rw [hcomp] at h1
        simp at h1
      · intro hd
        exfalso
        apply hr
        simp only [cube_dims_rejected, decide_eq_true_eq]
        exact hd

/-- Witness for `c2_amended_dimension_validation`: dimensions 3x2 (width not
a power of two) are rejected by all three 2D paths; the cube iff instantiated
at a zero width. -/
theorem c2_amended_dimension_validation_witness :
    spec_invalid_dims 3 2 ∧
    compile_albedo_roughness (some (3, 2)) true true (fun _ => true) (fun _ => true) 2 =
      (1, []) ∧
    compile_normal_metalness_ambient_occlusion (some (3, 2)) true true (fun _ => true)
      (fun _ => true) (fun _ => true) 2 = (1, []) ∧
    compile_parallax (some (3, 2)) true true (fun _ => true) (fun _ => true) 2 = (1, []) ∧
    (compile_cube_map 0 2 4 1 2 = (1, []) ↔ (0 = 0 ∨ 2 = 0 ∨ 65535 < 0 ∨ 65535 < 2)) := by
  have hs : spec_invalid_dims 3 2 :=
    Or.inr (Or.inr (Or.inr (Or.inr (Or.inl three_not_pow_two))))
  have h1 := c2_amended_dimension_validation.1 3 2 hs true true
    (fun _ => true) (fun _ => true) (fun _ => true) 2
  exact ⟨hs, h1.1, h1.2.1, h1.2.2, c2_amended_dimension_validation.2 0 2 4 1 2⟩

/-- Counterexample to C2 as stated: the decoded HDR dimensions 3x2 are
spec-invalid (3 is not a power of two), yet `compile_cube_map` accepts them —
it returns 0, writes the base container header (declaring 3 mips for output
size 4) and performs 18 base compress calls, instead of returning non-zero
with no output. -/
theorem c2_counterexample_cube_accepts_non_pow2 :
    spec_invalid_dims 3 2 ∧
    (compile_cube_map 3 2 4 1 2).1 = 0 ∧
    header_mips 0 (compile_cube_map 3 2 4 1 2).2 = some 3 ∧
    (compress_calls 0 (compile_cube_map 3 2 4 1 2).2).length = 18 := by
  have hc4 : count_mip_maps 4 = 3 := by
    rw [show (4 : Nat) = 2 ^ 2 by norm_num, count_mip_maps_eq_log2, Nat.log2_two_pow]
  have htr := compile_cube_map_trace 3 2 4 1 2 (by decide)
  refine ⟨Or.inr (Or.inr (Or.inr (Or.inr (Or.inl three_not_pow_two)))), htr.1, ?_, ?_⟩
  · rw [htr.2.2.2.2.1, hc4]
  · rw [htr.2.1, face_major_length, hc4]

/-- C3: for a NormalMetalnessAO pixel with normalized red `r` and green `g`,
with `x = 2r-1`, `y = 2g-1`, `d = x*x + y*y`, the reconstructed blue value is
`sqrt(1-d)*0.5 + 0.5` when `d < 1` and exactly `0.5` when `d ≥ 1`; in
particular `r = g = 0.5` yields `1`, and both the boundary `d = 1`
(`r = 1, g = 0.5`) and `d > 1` (`r = g = 1`) yield `0.5`. -/
theorem c3_normal_z_reconstruction :
    (∀ r g : ℝ, (r * 2 - 1) * (r * 2 - 1) + (g * 2 - 1) * (g * 2 - 1) < 1 →
      reconstruct_z r g =
        Real.sqrt (1 - ((r * 2 - 1) * (r * 2 - 1) + (g * 2 - 1) * (g * 2 - 1))) * 0.5 + 0.5) ∧
    (∀ r g : ℝ, 1 ≤ (r * 2 - 1) * (r * 2 - 1) + (g * 2 - 1) * (g * 2 - 1) →
      reconstruct_z r g = 0.5) ∧
    reconstruct_z 0.5 0.5 = 1 ∧
    reconstruct_z 1 0.5 = 0.5 ∧
    reconstruct_z 1 1 = 0.5 := by
  refine ⟨?_, ?_, reconstruct_z_flat_pixel, ?_, ?_⟩
  · intro r g h
    simp only [reconstruct_z]
    rw [if_pos h]
  · intro r g h
    simp only [reconstruct_z]
    rw [if_neg (not_lt.mpr h)]
  · simp only [reconstruct_z]
    rw [if_neg (by norm_num)]
  · simp only [reconstruct_z]
    rw [if_neg (by norm_num)]

/-- Witness for `c3_normal_z_reconstruction`: both conditional branches
instantiated at concrete pixels (`r = 0.3, g = 0.5` has `d < 1`;
`r = g = 1` has `d ≥ 1`). -/
theorem c3_normal_z_reconstruction_witness :
    (((0.3 : ℝ) * 2 - 1) * ((0.3 : ℝ) * 2 - 1) +
      ((0.5 : ℝ) * 2 - 1) * ((0.5 : ℝ) * 2 - 1) < 1) ∧
    reconstruct_z 0.3 0.5 =
      Real.sqrt (1 - (((0.3 : ℝ) * 2 - 1) * ((0.3 : ℝ) * 2 - 1) +
        ((0.5 : ℝ) * 2 - 1) * ((0.5 : ℝ) * 2 - 1))) * 0.5 + 0.5 ∧
    (1 ≤ ((1 : ℝ) * 2 - 1) * ((1 : ℝ) * 2 - 1) + ((1 : ℝ) * 2 - 1) * ((1 : ℝ) * 2 - 1)) ∧
    reconstruct_z 1 1 = 0.5 :=
  ⟨by norm_num, c3_normal_z_reconstruction.1 0.3 0.5 (by norm_num), by norm_num,
    c3_normal_z_reconstruction.2.1 1 1 (by norm_num)⟩

/-- Counterexample to C4 at the concrete 1x1 input pixel
`(r, g, m, ao) = (0.5, 0.5, 0, 0)`: exactly one surface is submitted to
compression (not two), and its channel 2 holds the metalness value `0`,
not the reconstructed Z value `1` — so the compressed output is not the
claimed pair of a normal map carrying reconstructed Z and a metalness/AO map. -/
theorem c4_counterexample_single_surface_compressed :
    (nmao_compress_submissions 0.5 0.5 0 0).length = 1 ∧
    (nmao_compress_submissions 0.5 0.5 0 0).head?.map SurfaceSpec.c2 = some 0 ∧
    reconstruct_z 0.5 0.5 = 1 ∧ (0 : ℝ) ≠ 1 := by
  refine ⟨rfl, rfl, reconstruct_z_flat_pixel, by norm_num⟩

/-- C4 amended: the channel codec builds two intermediate surfaces — a
4-channel normal map `(r, g, reconstructed-Z, alpha = 1)` tagged as a vector
map, and a metalness/AO map carrying metalness and AO in channels 2 and 3 —
but per mip level it submits to compression a single combined 4-channel
surface whose channels are (normal R, normal G, metalness, AO), not tagged as
a vector map; only that one surface is compressed, into one output container. -/
theorem c4_amended_nmao_surfaces :
    ∀ r g m ao : ℝ,
      nmao_normal_surface r g = ⟨r, g, reconstruct_z r g, 1, true⟩ ∧
      (nmao_metalness_ao_surface m ao).c2 = m ∧
      (nmao_metalness_ao_surface m ao).c3 = ao ∧
      (nmao_metalness_ao_surface m ao).isNormalMap = false ∧
      nmao_compress_submissions r g m ao = [⟨r, g, m, ao, false⟩] ∧
      (nmao_compress_submissions r g m ao).length = 1 := by
  intro r g m ao
  exact ⟨rfl, rfl, rfl, rfl, rfl, rfl⟩

/-- C5: `count_mip_maps size` equals `⌊log2 size⌋ + 1` (stated for every size,
hence for every power of two `2^k` it is `k + 1`; 1024 gives 11, 32 gives 6,
1 gives 1), and on the cube path this value is both the mip count declared in
the base container header and the per-asset number of base compress calls
(6 faces times `count_mip_maps output_size` levels). -/
theorem c5_count_mip_maps_log2 :
    (∀ size : Nat, count_mip_maps size = Nat.log2 size + 1) ∧
    (∀ k : Nat, count_mip_maps (2 ^ k) = k + 1) ∧
    count_mip_maps 1024 = 11 ∧
    count_mip_maps 32 = 6 ∧
    count_mip_maps 1 = 1 ∧
    (∀ w h osize isize psize : Nat, cube_dims_rejected w h = false →
      header_mips 0 (compile_cube_map w h osize isize psize).2 =
        some (count_mip_maps osize) ∧
      (compress_calls 0 (compile_cube_map w h osize isize psize).2).length =
        6 * count_mip_maps osize) := by
  have hpow : ∀ k : Nat, count_mip_maps (2 ^ k) = k + 1 := by
    intro k
    rw [count_mip_maps_eq_log2, Nat.log2_two_pow]
  refine ⟨count_mip_maps_eq_log2, hpow, ?_, ?_, ?_, ?_⟩
  · have h10 := hpow 10
    norm_num at h10
    exact h10
  · have h5 := hpow 5
    norm_num at h5
    exact h5
  · have h0 := hpow 0
    norm_num at h0
    exact h0
  · intro w h osize isize psize hr
    have htr := compile_cube_map_trace w h osize isize psize hr
    exact ⟨htr.2.2.2.2.1, by rw [htr.2.1, face_major_length]⟩

/-- Witness for `c5_count_mip_maps_log2` at accepted dimensions 2x2 with
output size 4. -/
theorem c5_count_mip_maps_log2_witness :
    cube_dims_rejected 2 2 = false ∧
    header_mips 0 (compile_cube_map 2 2 4 1 2).2 = some (count_mip_maps 4) ∧
    (compress_calls 0 (compile_cube_map 2 2 4 1 2).2).length = 6 * count_mip_maps 4 := by
  have hc := c5_count_mip_maps_log2.2.2.2.2.2 2 2 4 1 2 (by decide)
  exact ⟨by decide, hc.1, hc.2⟩

/-- C6: in each of the three cube containers (base, irradiance, prefilter)
the compress calls after the header iterate faces 0..5 in the outer loop and
mip indices 0..N-1 in strictly increasing order in the inner loop: each
sequence equals the canonical face-major list, is strictly increasing in the
lexicographic (side, mip) order, and covers exactly the pairs with side < 6
and mip < N. -/
theorem c6_face_major_mip_minor :
    ∀ w h osize isize psize : Nat,
      cube_dims_rejected w h = false → 1 ≤ psize →
      compress_calls 0 (compile_cube_map w h osize isize psize).2 =
        face_major 6 (count_mip_maps osize) ∧
      compress_calls 1 (compile_cube_map w h osize isize psize).2 = face_major 6 1 ∧
      compress_calls 2 (compile_cube_map w h osize isize psize).2 =
        face_major 6 (count_mip_maps psize) ∧
      face_major_ordered (compress_calls 0 (compile_cube_map w h osize isize psize).2) ∧
      face_major_ordered (compress_calls 1 (compile_cube_map w h osize isize psize).2) ∧
      face_major_ordered (compress_calls 2 (compile_cube_map w h osize isize psize).2) ∧
      (∀ p : Nat × Nat,
        p ∈ compress_calls 0 (compile_cube_map w h osize isize psize).2 ↔
          p.1 < 6 ∧ p.2 < count_mip_maps osize) ∧
      (∀ p : Nat × Nat,
        p ∈ compress_calls 2 (compile_cube_map w h osize isize psize).2 ↔
          p.1 < 6 ∧ p.2 < count_mip_maps psize) := by
  intro w h osize isize psize hr hp
  have htr := compile_cube_map_trace w h osize isize psize hr
  have h2eq : compress_calls 2 (compile_cube_map w h osize isize psize).2 =
      face_major 6 (count_mip_maps psize) := by
    rw [htr.2.2.2.1, face_major]
    congr 1
    funext side
    rw [prefilter_mip_levels_eq_range psize hp 0, List.range_eq_range']
  refine ⟨htr.2.1, htr.2.2.1, h2eq, ?_, ?_, ?_, ?_, ?_⟩
  · rw [htr.2.1]
    exact face_major_ordered_face_major 6 _
  · rw [htr.2.2.1]
    exact face_major_ordered_face_major 6 1
  · rw [h2eq]
    exact face_major_ordered_face_major 6 _
  · intro p
    rw [htr.2.1]
    exact mem_face_major
  · intro p
    rw [h2eq]
    exact mem_face_major

/-- Witness for `c6_face_major_mip_minor` at accepted dimensions 2x2 with
output size 2, irradiance size 1 and prefilter size 2. -/
theorem c6_face_major_mip_minor_witness :
    cube_dims_rejected 2 2 = false ∧ 1 ≤ 2 ∧
    compress_calls 0 (compile_cube_map 2 2 2 1 2).2 = face_major 6 (count_mip_maps 2) ∧
    compress_calls 1 (compile_cube_map 2 2 2 1 2).2 = face_major 6 1 ∧
    compress_calls 2 (compile_cube_map 2 2 2 1 2).2 = face_major 6 (count_mip_maps 2) ∧
    face_major_ordered (compress_calls 0 (compile_cube_map 2 2 2 1 2).2) := by
  have hc := c6_face_major_mip_minor 2 2 2 1 2 (by decide) (by decide)
  exact ⟨by decide, by decide, hc.1, hc.2.1, hc.2.2.1, hc.2.2.2.1⟩

/-- C7: whenever the readback wait loop exits (so the buffer is about to be
consumed), the completed-frame counter observed at exit is at least the frame
token returned by `readTexture`. -/
theorem c7_readback_wait_frame_token :
    ∀ (frames : Nat → Nat) (token fuel i observed : Nat),
      wait_for_frame frames token fuel i = some observed →
      token ≤ observed := by
  intro frames token fuel
  induction fuel with
  | zero =>
    intro i observed h
    simp [wait_for_frame] at h
  | succ n ih =>
    intro i observed h
    simp only [wait_for_frame] at h
    by_cases hc : frames i < token
    · rw [if_pos hc] at h
      exact ih (i + 1) observed h
    · rw [if_neg hc] at h
      cases h
      omega

/-- Witness for `c7_readback_wait_frame_token`: with the identity frame
counter and token 3, the loop exits observing 3. -/
theorem c7_readback_wait_frame_token_witness :
    wait_for_frame (fun i => i) 3 10 0 = some 3 ∧ 3 ≤ 3 :=
  ⟨by decide, c7_readback_wait_frame_token (fun i => i) 3 10 0 3 (by decide)⟩

/-- C8: the prefilter roughness parameter equals
`min(mip_level, MAX_MIP_LEVELS) / MAX_MIP_LEVELS`, is monotonically
non-decreasing in the mip index, is constantly 1 for mip indices at or beyond
the cap, and the same uniform carries the base capture resolution
`output_size` in its second component. -/
theorem c8_prefilter_roughness_monotone :
    ∀ m m' osize : Nat, m ≤ m' →
      (prefilter_settings m osize).1 =
        ((min m MAX_MIP_LEVELS : Nat) : ℚ) / (MAX_MIP_LEVELS : ℚ) ∧
      (prefilter_settings m osize).1 ≤ (prefilter_settings m' osize).1 ∧
      (MAX_MIP_LEVELS ≤ m → (prefilter_settings m osize).1 = 1) ∧
      (prefilter_settings m osize).2.1 = (osize : ℚ) := by
  intro m m' osize hmm
  refine ⟨rfl, ?_, ?_, rfl⟩
  · have hmin : min m MAX_MIP_LEVELS ≤ min m' MAX_MIP_LEVELS := min_le_min hmm le_rfl
    have hc : ((min m MAX_MIP_LEVELS : Nat) : ℚ) ≤ ((min m' MAX_MIP_LEVELS : Nat) : ℚ) :=
      Nat.cast_le.mpr hmin
    simp only [prefilter_settings, MAX_MIP_LEVELS]
    exact div_le_div_of_nonneg_right hc (by norm_num)
  · intro hcap
    have hm : min m MAX_MIP_LEVELS = MAX_MIP_LEVELS := min_eq_right hcap
    simp only [prefilter_settings, hm]
    norm_num [MAX_MIP_LEVELS]

/-- Witness for `c8_prefilter_roughness_monotone` at mips 5 and 6 (both past
the cap) with capture resolution 128. -/
theorem c8_prefilter_roughness_monotone_witness :
    (5 : Nat) ≤ 6 ∧
    (prefilter_settings 5 128).1 =
      ((min 5 MAX_MIP_LEVELS : Nat) : ℚ) / (MAX_MIP_LEVELS : ℚ) ∧
    (prefilter_settings 5 128).1 ≤ (prefilter_settings 6 128).1 ∧
    MAX_MIP_LEVELS ≤ 5 ∧
    (prefilter_settings 5 128).1 = 1 ∧
    (prefilter_settings 5 128).2.1 = (128 : ℚ) := by
  have hc := c8_prefilter_roughness_monotone 5 6 128 (by norm_num)
  refine ⟨by norm_num, hc.1, hc.2.1, ?_, hc.2.2.1 ?_, hc.2.2.2⟩ <;>
    norm_num [MAX_MIP_LEVELS]

/-- C9: the profile mapping is tier-independent where the spec table says
"same": for Parallax, the Quality (`GOOD_BUT_SLOW`) and Fast (`POOR_BUT_FAST`)
tiers select the same single-channel block format BC4, and Lossless
(`NO_COMPRESSION`) selects a raw single-channel 8-bit pixel layout; for the
cube-map irradiance output all three tiers select uncompressed
16-bit-per-channel float, independent of the requested tier. -/
theorem c9_tier_independent_profiles :
    parallax_compression_options .GOOD_BUT_SLOW = parallax_compression_options .POOR_BUT_FAST ∧
    (parallax_compression_options .GOOD_BUT_SLOW).format = .BC4 ∧
    (parallax_compression_options .POOR_BUT_FAST).format = .BC4 ∧
    parallax_compression_options .NO_COMPRESSION =
      ⟨.RGBA, some (.masks 8 255 0 0 0), none⟩ ∧
    (∀ c c' : Compression,
      irradiance_compression_options c = irradiance_compression_options c') ∧
    irradiance_compression_options .GOOD_BUT_SLOW =
      ⟨.RGB, some (.sizes 16 16 16 16), some .float⟩ := by
  refine ⟨rfl, rfl, rfl, rfl, ?_, rfl⟩
  intro c c'
  cases c <;> cases c' <;> rfl

/-- C10: for any red/green channel values in `[0,1]` the reconstructed blue
value lies in the closed interval `[0.5, 1]`: the reconstruction never encodes
a negative Z component. -/
theorem c10_reconstructed_z_range :
    ∀ r g : ℝ, 0 ≤ r → r ≤ 1 → 0 ≤ g → g ≤ 1 →
      0.5 ≤ reconstruct_z r g ∧ reconstruct_z r g ≤ 1 := by
  intro r g _ _ _ _
  simp only [reconstruct_z]
  by_cases h : (r * 2 - 1) * (r * 2 - 1) + (g * 2 - 1) * (g * 2 - 1) < 1
  · rw [if_pos h]
    have hs0 : 0 ≤ Real.sqrt (1 - ((r * 2 - 1) * (r * 2 - 1) + (g * 2 - 1) * (g * 2 - 1))) :=
      Real.sqrt_nonneg _
    have hd0 : 0 ≤ (r * 2 - 1) * (r * 2 - 1) + (g * 2 - 1) * (g * 2 - 1) := by
      nlinarith [mul_self_nonneg (r * 2 - 1), mul_self_nonneg (g * 2 - 1)]
    have hs1 : Real.sqrt (1 - ((r * 2 - 1) * (r * 2 - 1) + (g * 2 - 1) * (g * 2 - 1))) ≤ 1 := by
      have := Real.sqrt_le_sqrt (x := 1 - ((r * 2 - 1) * (r * 2 - 1) + (g * 2 - 1) * (g * 2 - 1)))
        (y := 1) (by linarith)
      simpa [Real.sqrt_one] using this
    constructor <;> nlinarith
  · rw [if_neg h]
    norm_num

/-- Witness for `c10_reconstructed_z_range` at the flat pixel `r = g = 0.5`. -/
theorem c10_reconstructed_z_range_witness :
    (0 : ℝ) ≤ 0.5 ∧ (0.5 : ℝ) ≤ 1 ∧
    0.5 ≤ reconstruct_z 0.5 0.5 ∧ reconstruct_z 0.5 0.5 ≤ 1 :=
  ⟨by norm_num, by norm_num,
    (c10_reconstructed_z_range 0.5 0.5 (by norm_num) (by norm_num) (by norm_num) (by norm_num)).1,
    (c10_reconstructed_z_range 0.5 0.5 (by norm_num) (by norm_num) (by norm_num) (by norm_num)).2⟩
